import Mathlib

/-!
Verification of the SSCP lecture-repository computations.

Shallow embeddings of the numerical routines of the SSCP_2024 lecture
repository, with theorems settling the specification claims about them.
Real-valued code (involving `exp` and real powers) is embedded over `ℝ`;
purely rational arithmetic (spike binning, LIF integration, the
restitution scan, the autodiff engine at rational inputs) is embedded
over `ℚ` so that concrete runs can be checked by `decide`.
-/

set_option autoImplicit false

namespace SSCP

/-! Section L10_widget.py: `CICRWidget.rhs`. -/

namespace CICR

/-- Embedding of `CICRWidget.rhs` (L09/L10_widget.py, lines 25-42).
The state vector `y` is split into its two components `Cai, CaSR`;
the unused time argument `t` is kept to mirror the signature.
The float power `Cai**n` with real exponent `n` is `Real.rpow`. -/
noncomputable def rhs (_t Cai CaSR Cao k_entry k_extrusion k_uptake
    kappa0 kappa1 Kd n gamma : ℝ) : ℝ × ℝ :=
  let Jentry := k_entry * (Cao - Cai)
  let Jextrusion := k_extrusion * Cai
  let Juptake := k_uptake * Cai
  let k_rel := kappa0 + kappa1 * Cai ^ n / (Cai ^ n + Kd ^ n)
  let Jrel := k_rel * (CaSR - Cai)
  let dCai_dt := Jentry + Jrel - Jextrusion - Juptake
  let dCaSR_dt := (Juptake - Jrel) / gamma
  (dCai_dt, dCaSR_dt)

end CICR

/-! Section Jafri_model.py: L-type calcium channel Markov-chain derivatives. -/

namespace Jafri

/-- Class constant `omega = 0.01`. -/
def omega : ℝ := 0.01
/-- Class constant `a = 2` (mode-shift factor on opening rates). -/
def aC : ℝ := 2
/-- Class constant `b = 2` (mode-shift factor on closing rates). -/
def bC : ℝ := 2
/-- Class constant `g = 2`. -/
def gC : ℝ := 2
/-- Class constant `f = 0.3`. -/
def fC : ℝ := 0.3
/-- Class constant `g_ = 0`. -/
def gC' : ℝ := 0
/-- Class constant `f_ = 0`. -/
def fC' : ℝ := 0

/-- Voltage-dependent opening rate, line 176: `0.40*exp((V + 12.0)/10.0)`. -/
noncomputable def alpha (V : ℝ) : ℝ := 0.40 * Real.exp ((V + 12.0) / 10.0)

/-- Voltage-dependent closing rate, line 177: `0.05*exp((V + 12.0)/(-13.0))`. -/
noncomputable def beta (V : ℝ) : ℝ := 0.05 * Real.exp ((V + 12.0) / (-13.0))

/-- Ca-dependent rate, line 178: `0.1875*Ca_SS`. -/
def gamma (Ca_SS : ℝ) : ℝ := 0.1875 * Ca_SS

/-- Rate `alpha_a = alpha*a`, line 179. -/
noncomputable def alpha_a (V : ℝ) : ℝ := alpha V * aC

/-- Rate `beta_b = beta/b`, line 180. -/
noncomputable def beta_b (V : ℝ) : ℝ := beta V / bC

/-- The 14 state quantities feeding the L-type Markov derivatives of
`Jafri_model_parts.currents_concentrations`: membrane voltage `V`,
subspace calcium `Ca_SS`, and the 12 channel occupancies. -/
structure LState where
  V : ℝ
  C0 : ℝ
  C1 : ℝ
  C2 : ℝ
  C3 : ℝ
  C4 : ℝ
  C_Ca0 : ℝ
  C_Ca1 : ℝ
  C_Ca2 : ℝ
  C_Ca3 : ℝ
  C_Ca4 : ℝ
  O : ℝ
  O_Ca : ℝ
  Ca_SS : ℝ

/-- Line 186. -/
noncomputable def dC0_dt (s : LState) : ℝ :=
  (beta s.V * s.C1 + omega * s.C_Ca0) - (4.0 * alpha s.V + gamma s.Ca_SS) * s.C0

/-- Line 187. -/
noncomputable def dC1_dt (s : LState) : ℝ :=
  (4.0 * alpha s.V * s.C0 + 2.0 * beta s.V * s.C2 + (omega / bC) * s.C_Ca1)
    - (beta s.V + 3.0 * alpha s.V + gamma s.Ca_SS * aC) * s.C1

/-- Line 188. -/
noncomputable def dC2_dt (s : LState) : ℝ :=
  (3.0 * alpha s.V * s.C1 + 3.0 * beta s.V * s.C3 + (omega / bC ^ (2.0 : ℝ)) * s.C_Ca2)
    - (beta s.V * 2.0 + 2.0 * alpha s.V + gamma s.Ca_SS * aC ^ (2.0 : ℝ)) * s.C2

/-- Line 189. -/
noncomputable def dC3_dt (s : LState) : ℝ :=
  (2.0 * alpha s.V * s.C2 + 4.0 * beta s.V * s.C4 + (omega / bC ^ (3.0 : ℝ)) * s.C_Ca3)
    - (beta s.V * 3.0 + alpha s.V + gamma s.Ca_SS * aC ^ (3.0 : ℝ)) * s.C3

/-- Line 190. -/
noncomputable def dC4_dt (s : LState) : ℝ :=
  (alpha s.V * s.C3 + gC * s.O + (omega / bC ^ (4.0 : ℝ)) * s.C_Ca4)
    - (beta s.V * 4.0 + fC + gamma s.Ca_SS * aC ^ (4.0 : ℝ)) * s.C4

/-- Line 191: note the inflow term `gamma*C_Ca0` (not `gamma*C0`). -/
noncomputable def dC_Ca0_dt (s : LState) : ℝ :=
  (beta_b s.V * s.C_Ca1 + gamma s.Ca_SS * s.C_Ca0) - (4.0 * alpha_a s.V + omega) * s.C_Ca0

/-- Line 192. -/
noncomputable def dC_Ca1_dt (s : LState) : ℝ :=
  (4.0 * alpha_a s.V * s.C_Ca0 + 2.0 * beta_b s.V * s.C_Ca2 + gamma s.Ca_SS * aC * s.C1)
    - (beta_b s.V + 3.0 * alpha_a s.V + omega / bC) * s.C_Ca1

/-- Line 193. -/
noncomputable def dC_Ca2_dt (s : LState) : ℝ :=
  (3.0 * alpha_a s.V * s.C_Ca1 + 3.0 * beta_b s.V * s.C_Ca3 + gamma s.Ca_SS * aC ^ (2.0 : ℝ) * s.C2)
    - (beta_b s.V * 2.0 + 2.0 * alpha_a s.V + omega / bC ^ (2.0 : ℝ)) * s.C_Ca2

/-- Line 194. -/
noncomputable def dC_Ca3_dt (s : LState) : ℝ :=
  (2.0 * alpha_a s.V * s.C_Ca2 + 4.0 * beta_b s.V * s.C_Ca4 + gamma s.Ca_SS * aC ^ (3.0 : ℝ) * s.C3)
    - (beta_b s.V * 3.0 + alpha_a s.V + omega / bC ^ (3.0 : ℝ)) * s.C_Ca3

/-- Line 195. -/
noncomputable def dC_Ca4_dt (s : LState) : ℝ :=
  (alpha_a s.V * s.C_Ca3 + gC' * s.O_Ca + gamma s.Ca_SS * aC ^ (4.0 : ℝ) * s.C4)
    - (beta_b s.V * 4.0 + fC' + omega / bC ^ (4.0 : ℝ)) * s.C_Ca4

/-- Line 196. -/
noncomputable def dO_dt (s : LState) : ℝ := fC * s.C4 - gC * s.O

/-- Line 197. -/
noncomputable def dO_Ca_dt (s : LState) : ℝ := fC' * s.C_Ca4 - gC' * s.O_Ca

/-- Sum of the 12 L-type occupancy derivatives returned by
`currents_concentrations`. -/
noncomputable def ltypeSum (s : LState) : ℝ :=
  dC0_dt s + dC1_dt s + dC2_dt s + dC3_dt s + dC4_dt s
    + dC_Ca0_dt s + dC_Ca1_dt s + dC_Ca2_dt s + dC_Ca3_dt s + dC_Ca4_dt s
    + dO_dt s + dO_Ca_dt s

/-- State with `C0 = 1`, `Ca_SS = 1`, all other occupancies `0`, `V = 0`. -/
noncomputable def badState : LState :=
  ⟨0, 1, 0, 0, 0, 0, 0, 0, 0, 0, 0, 0, 0, 1⟩

end Jafri

/-! Section 02B_APD_restitution/run.py: `visualize` (loss-of-capture truncation). -/

namespace Restitution

/-- One line of `restout_APD_restitution.dat`: a comment flag
(`line[0] == "#"`) and the whitespace-split numeric fields. -/
structure SrcLine where
  comment : Bool
  fields : List ℚ

/-- Column read as APD: `float(p[3])`. -/
def lineAPD (l : SrcLine) : ℚ := l.fields.getD 3 0

/-- Column read as DI: `float(p[5])`. -/
def lineDI (l : SrcLine) : ℚ := l.fields.getD 5 0

/-- Values `diffdi`/`diffapd` of the loop: `0` while `cnt == 0`, otherwise the
last kept value minus the current field. -/
def diffFrom (xs : List ℚ) (cur : ℚ) : ℚ :=
  match xs.getLast? with
  | none => 0
  | some d => d - cur

/-- The accumulation loop of `visualize` (run.py, lines 296-309).
`di` and `apd` are the lists built so far; the loop counter `cnt`
always equals their length, so `di[cnt-1]` is the last element.
On the first kept row (`cnt == 0`) both differences are still `0`. -/
def visualizeGo : List SrcLine → List ℚ → List ℚ → List ℚ × List ℚ
  | [], di, apd => (di, apd)
  | l :: rest, di, apd =>
    if l.comment then visualizeGo rest di apd
    else
      if diffFrom di (lineDI l) > -5 ∧ diffFrom apd (lineAPD l) > -10 then
        visualizeGo rest (di ++ [lineDI l]) (apd ++ [lineAPD l])
      else (di, apd)

/-- Embedding of `visualize`: the `(di, apd)` lists it retains from the
file's lines. -/
def visualize (lines : List SrcLine) : List ℚ × List ℚ :=
  visualizeGo lines [] []

/-- Modelled from the spec: given the previous kept `(apd, di)` row,
keep rows while `prevDI - DI > -5` and `prevAPD - APD > -10`, discarding
the first violating row and everything after it. -/
def specRetainedGo (prev : ℚ × ℚ) : List (ℚ × ℚ) → List (ℚ × ℚ)
  | [] => []
  | r :: rest =>
    if prev.2 - r.2 > -5 ∧ prev.1 - r.1 > -10 then r :: specRetainedGo r rest
    else []

/-- Modelled from the spec: the retained prefix of the `(apd, di)` rows;
the first row is always kept. -/
def specRetained : List (ℚ × ℚ) → List (ℚ × ℚ)
  | [] => []
  | r :: rest => r :: specRetainedGo r rest

/-- The `(apd, di)` pairs of the non-comment lines, in file order. -/
def dataRows (lines : List SrcLine) : List (ℚ × ℚ) :=
  (lines.filter (fun l => !l.comment)).map (fun l => (lineAPD l, lineDI l))

theorem visualizeGo_eq_specRetainedGo (lines : List SrcLine) :
    ∀ (di apd : List ℚ) (a0 d0 : ℚ),
      di.getLast? = some d0 → apd.getLast? = some a0 →
      visualizeGo lines di apd =
        (di ++ (specRetainedGo (a0, d0) (dataRows lines)).map Prod.snd,
         apd ++ (specRetainedGo (a0, d0) (dataRows lines)).map Prod.fst) := by
  induction lines with
  | nil => intro di apd a0 d0 _ _; simp [visualizeGo, dataRows, specRetainedGo]
  | cons l rest ih =>
    intro di apd a0 d0 hdi hapd
    by_cases hc : l.comment
    · have : dataRows (l :: rest) = dataRows rest := by
        simp [dataRows, List.filter, hc]
      rw [this]
      simpa [visualizeGo, hc] using ih di apd a0 d0 hdi hapd
    · have hrows : dataRows (l :: rest) = (lineAPD l, lineDI l) :: dataRows rest := by
        simp [dataRows, List.filter, hc]
      rw [hrows]
      have e1 : diffFrom di (lineDI l) = d0 - lineDI l := by
        simp [diffFrom, hdi]
      have e2 : diffFrom apd (lineAPD l) = a0 - lineAPD l := by
        simp [diffFrom, hapd]
      simp only [visualizeGo]
      rw [if_neg hc, e1, e2]
      by_cases hkeep : d0 - lineDI l > -5 ∧ a0 - lineAPD l > -10
      · rw [if_pos hkeep]
        rw [ih (di ++ [lineDI l]) (apd ++ [lineAPD l]) (lineAPD l) (lineDI l)
          (by simp) (by simp)]
        have hspec : specRetainedGo (a0, d0)
            ((lineAPD l, lineDI l) :: dataRows rest) =
            (lineAPD l, lineDI l) ::
              specRetainedGo (lineAPD l, lineDI l) (dataRows rest) := by
          simp only [specRetainedGo]
          exact if_pos hkeep
        rw [hspec]
        simp
      · rw [if_neg hkeep]
        have hspec : specRetainedGo (a0, d0)
            ((lineAPD l, lineDI l) :: dataRows rest) = [] := by
          simp only [specRetainedGo]
          exact if_neg hkeep
        rw [hspec]
        simp

end Restitution

/-- Claim C3: The restitution visualizer retains exactly the longest prefix
of the non-comment rows (column 3 as APD, column 5 as DI) in which the
first row is always kept and every later row satisfies
`(previous kept DI) - DI > -5` and `(previous kept APD) - APD > -10`;
the first violating row and everything after it are discarded. -/
theorem visualize_retains_longest_monotone_run
    (lines : List Restitution.SrcLine) :
    Restitution.visualize lines =
      ((Restitution.specRetained (Restitution.dataRows lines)).map Prod.snd,
       (Restitution.specRetained (Restitution.dataRows lines)).map Prod.fst) := by
  induction lines with
  | nil => rfl
  | cons l rest ih =>
    by_cases hc : l.comment
    · have hrows : Restitution.dataRows (l :: rest) =
          Restitution.dataRows rest := by
        simp [Restitution.dataRows, List.filter, hc]
      rw [hrows]
      show Restitution.visualizeGo (l :: rest) [] [] = _
      simp only [Restitution.visualizeGo]
      rw [if_pos hc]
      exact ih
    · have hrows : Restitution.dataRows (l :: rest) =
          (Restitution.lineAPD l, Restitution.lineDI l) ::
            Restitution.dataRows rest := by
        simp [Restitution.dataRows, List.filter, hc]
      rw [hrows]
      show Restitution.visualizeGo (l :: rest) [] [] = _
      simp only [Restitution.visualizeGo]
      rw [if_neg hc, if_pos (by norm_num [Restitution.diffFrom])]
      rw [show ([] : List ℚ) ++ [Restitution.lineDI l] = [Restitution.lineDI l]
        from rfl]
      rw [show ([] : List ℚ) ++ [Restitution.lineAPD l] = [Restitution.lineAPD l]
        from rfl]
      rw [Restitution.visualizeGo_eq_specRetainedGo rest
        [Restitution.lineDI l] [Restitution.lineAPD l]
        (Restitution.lineAPD l) (Restitution.lineDI l) (by simp) (by simp)]
      simp [Restitution.specRetained]

/-! Section 02B_APD_restitution/run.py: `jobID`. -/

namespace JobID

/-- True when `l` starts with `pat`. -/
def startsList : List Char → List Char → Bool
  | _, [] => true
  | [], _ :: _ => false
  | c :: cs, d :: ds => c = d && startsList cs ds

/-- True when `pat` occurs as a contiguous run inside `l`. -/
def hasSubList : List Char → List Char → Bool
  | [], pat => startsList [] pat
  | l@(_ :: t), pat => startsList l pat || hasSubList t pat

/-- True when `pat` is a substring of `s`. -/
def strHasSub (s pat : String) : Bool := hasSubList s.data pat.data

/-- Embedding of `jobID` (02B_APD_restitution/run.py, lines 317-322).
`todayISO` stands for `date.today().isoformat()`; the remaining arguments
are the string values of `args.CI0`, `args.CI1`, `args.Protocol`,
`args.imp`, `args.params`.  The Python extension line is
`ID += '_{}'.format(args.imp, args.params)`: the format string has a
single placeholder, so `str.format` substitutes `args.imp` and silently
ignores the extra argument `args.params`. -/
def jobID (todayISO CI0 CI1 protocol imp params : String) : String :=
  let ID := todayISO ++ "_CI0-" ++ CI0 ++ "_CI1-" ++ CI1 ++ "_" ++ protocol
  if params ≠ "" then ID ++ "_" ++ imp else ID

end JobID

/-! Section 01_basic_bench/run.py: initial-state file check in `run`. -/

namespace Bench

/-- Embedding of the `args.init` block of `run`
(01_basic_bench/run.py, lines 519-524).  The filesystem is modelled as
the list `fs` of paths for which `os.path.isfile` returns true, and the
process outcome as an `Except`: `error (msg, code)` models printing
`msg` and terminating via `sys.exit(code)` before the external `bench`
binary is invoked; `ok cmd` models continuing to `job.bench` with the
argument list `cmd`. -/
def initFileStep (fs : List String) (init : String) (cmd : List String) :
    Except (String × Int) (List String) :=
  if init ≠ "" then
    if !fs.contains init then
      Except.error
        ("State variable initialization file " ++ init ++ " not found!", -1)
    else
      Except.ok (cmd ++ ["--read-ini-file", init])
  else
    Except.ok cmd

end Bench

/-- Claim C7: Counter to the claim: when a parameter string is supplied, the
generated job identifier contains the date, `CI0`, `CI1`, the protocol
name and the ionic-model name as substrings, but not the parameter string
itself — `'_{}'.format(args.imp, args.params)` has one placeholder and
silently discards `args.params`.  Evaluated at a concrete argument set. -/
theorem jobid_omits_params_string :
    ("-gNa 10" : String) ≠ "" ∧
    JobID.jobID "2026-10-12" "1000" "300" "APD_restitution" "LuoRudy94"
        "-gNa 10" =
      "2026-10-12_CI0-1000_CI1-300_APD_restitution_LuoRudy94" ∧
    JobID.strHasSub
      "2026-10-12_CI0-1000_CI1-300_APD_restitution_LuoRudy94"
      "2026-10-12" = true ∧
    JobID.strHasSub
      "2026-10-12_CI0-1000_CI1-300_APD_restitution_LuoRudy94"
      "1000" = true ∧
    JobID.strHasSub
      "2026-10-12_CI0-1000_CI1-300_APD_restitution_LuoRudy94"
      "300" = true ∧
    JobID.strHasSub
      "2026-10-12_CI0-1000_CI1-300_APD_restitution_LuoRudy94"
      "APD_restitution" = true ∧
    JobID.strHasSub
      "2026-10-12_CI0-1000_CI1-300_APD_restitution_LuoRudy94"
      "LuoRudy94" = true ∧
    JobID.strHasSub
      "2026-10-12_CI0-1000_CI1-300_APD_restitution_LuoRudy94"
      "-gNa 10" = false := by
  refine ⟨by decide, by decide, by decide, by decide, by decide, by decide,
    by decide, by decide⟩

/-- Claim C9: If a non-empty initial-state file path is supplied and no such
file exists, `run` prints a diagnostic naming the file and terminates with
exit status `-1` before invoking `bench`; if the file exists,
`--read-ini-file <path>` is appended to the bench argument list. -/
theorem bench_init_file_check (fs : List String) (init : String)
    (cmd : List String) (hne : init ≠ "") :
    (fs.contains init = false →
      Bench.initFileStep fs init cmd =
        Except.error
          ("State variable initialization file " ++ init ++ " not found!",
           -1)) ∧
    (fs.contains init = true →
      Bench.initFileStep fs init cmd =
        Except.ok (cmd ++ ["--read-ini-file", init])) := by
  constructor
  · intro h
    have h' : init ∉ fs := by simpa using h
    simp [Bench.initFileStep, hne, h']
  · intro h
    have h' : init ∈ fs := by simpa using h
    simp [Bench.initFileStep, hne, h']

/-- Witness for C9 at a concrete filesystem and path. -/
theorem bench_init_file_check_witness :
    ("missing.sv" : String) ≠ "" ∧
    (((["present.sv"] : List String).contains "missing.sv" = false →
      Bench.initFileStep ["present.sv"] "missing.sv" [] =
        Except.error
          ("State variable initialization file " ++ "missing.sv"
              ++ " not found!", -1)) ∧
    ((["present.sv"] : List String).contains "missing.sv" = true →
      Bench.initFileStep ["present.sv"] "missing.sv" [] =
        Except.ok ([] ++ ["--read-ini-file", "missing.sv"]))) :=
  ⟨by decide, bench_init_file_check ["present.sv"] "missing.sv" [] (by decide)⟩

/-! Section methods.py: `lif_integrate`. -/

namespace LIF

/-- Column sums `spike_trains.sum(axis=0)` for a (ncells, T) matrix given as a list
of rows of equal length (ncells >= 1). -/
def colSums : List (List ℚ) → List ℚ
  | [] => []
  | r :: rs => rs.foldl (fun acc row => List.zipWith (· + ·) acc row) r

/-- The update loop of `lif_integrate` (methods.py, lines 67-75):
`u` is `us[i_t]`, each pair holds the excitatory and inhibitory spike
counts at `i_t`; the outputs are the tails `us[1:]`, `out_spike_train[1:]`.
`leak = u - ur`, `current = w_inh*ci + w_exc*ce`,
`us[i_t+1] = u - dt*leak/tau + current`, reset to `ur` (with spike flag 1)
when the new value exceeds `u_thresh`. -/
def lifGo (tau dt ur uthresh wexc winh : ℚ) :
    List (ℚ × ℚ) → ℚ → List ℚ × List ℚ
  | [], _ => ([], [])
  | (ce, ci) :: rest, u =>
    let leak := u - ur
    let current := winh * ci + wexc * ce
    let unext := u - dt * leak / tau + current
    let step : ℚ × ℚ := if unext > uthresh then (ur, 1) else (unext, 0)
    let tail := lifGo tau dt ur uthresh wexc winh rest step.1
    (step.1 :: tail.1, step.2 :: tail.2)

/-- Embedding of `lif_integrate` (methods.py, lines 45-76).  `us` has the
length `T` of the summed spike-count rows, `us[0] = ur`,
`out_spike_train[0] = 0` (from `np.zeros`), and the loop consumes the
counts at indices `0 .. T-2`. -/
def lif_integrate (exc inh : List (List ℚ))
    (tau dt ur uthresh wexc winh : ℚ) : List ℚ × List ℚ :=
  let ec := colSums exc
  let ic := colSums inh
  let tail := lifGo tau dt ur uthresh wexc winh ((ec.zip ic).dropLast) ur
  (ur :: tail.1, 0 :: tail.2)

theorem lifGo_invariant (tau dt ur uthresh wexc winh : ℚ)
    (hru : ur ≤ uthresh) (pairs : List (ℚ × ℚ)) :
    ∀ (u : ℚ) (i : ℕ),
      ((lifGo tau dt ur uthresh wexc winh pairs u).2.getD i 0 = 1 →
        (lifGo tau dt ur uthresh wexc winh pairs u).1.getD i 0 = ur) ∧
      (i < (lifGo tau dt ur uthresh wexc winh pairs u).1.length →
        (lifGo tau dt ur uthresh wexc winh pairs u).1.getD i 0 ≤ uthresh) := by
  induction pairs with
  | nil =>
    intro u i
    simp [lifGo]
  | cons p rest ih =>
    intro u i
    obtain ⟨ce, ci⟩ := p
    match i with
    | 0 =>
      constructor
      · intro hflag
        by_cases hthr : u - dt * (u - ur) / tau + (winh * ci + wexc * ce) >
            uthresh
        · simp [lifGo, hthr]
        · exfalso
          simp [lifGo, hthr] at hflag
      · intro _
        by_cases hthr : u - dt * (u - ur) / tau + (winh * ci + wexc * ce) >
            uthresh
        · simpa [lifGo, hthr] using hru
        · simp [lifGo, hthr]
          linarith [not_lt.mp hthr]
    | Nat.succ j =>
      constructor
      · intro hflag
        by_cases hthr : u - dt * (u - ur) / tau + (winh * ci + wexc * ce) >
            uthresh
        · have := (ih ur j).1
          simp only [lifGo, hthr] at hflag ⊢
          simpa using this (by simpa using hflag)
        · have := (ih (u - dt * (u - ur) / tau + (winh * ci + wexc * ce)) j).1
          simp only [lifGo, hthr] at hflag ⊢
          simpa using this (by simpa using hflag)
      · intro hlen
        by_cases hthr : u - dt * (u - ur) / tau + (winh * ci + wexc * ce) >
            uthresh
        · have := (ih ur j).2
          simp only [lifGo, hthr] at hlen ⊢
          simpa using this (by simpa using hlen)
        · have := (ih (u - dt * (u - ur) / tau + (winh * ci + wexc * ce)) j).2
          simp only [lifGo, hthr] at hlen ⊢
          simpa using this (by simpa using hlen)

end LIF

/-- Claim C5: For binary spike matrices of equal time length `T ≥ 1` and the
default parameters (`tau=20, dt=1, ur=-77, u_thresh=-55, w_exc=2,
w_inh=-2`), `lif_integrate` satisfies: `us[0] = ur`; whenever the output
spike flag at `i` is `1`, `us[i] = ur` exactly; and `us[i] ≤ u_thresh`
for every index `i` (a crossing sample is immediately reset). -/
theorem lif_integrate_reset_and_threshold (exc inh : List (List ℚ)) (T : ℕ)
    (hT : 1 ≤ T) (hexc : exc ≠ []) (hinh : inh ≠ [])
    (hle : ∀ r ∈ exc, r.length = T) (hli : ∀ r ∈ inh, r.length = T)
    (hbe : ∀ r ∈ exc, ∀ x ∈ r, x = 0 ∨ x = 1)
    (hbi : ∀ r ∈ inh, ∀ x ∈ r, x = 0 ∨ x = 1) :
    (LIF.lif_integrate exc inh 20 1 (-77) (-55) 2 (-2)).1.getD 0 0 = -77 ∧
    (∀ i : ℕ,
      (LIF.lif_integrate exc inh 20 1 (-77) (-55) 2 (-2)).2.getD i 0 = 1 →
      (LIF.lif_integrate exc inh 20 1 (-77) (-55) 2 (-2)).1.getD i 0 = -77) ∧
    (∀ i : ℕ,
      i < (LIF.lif_integrate exc inh 20 1 (-77) (-55) 2 (-2)).1.length →
      (LIF.lif_integrate exc inh 20 1 (-77) (-55) 2 (-2)).1.getD i 0 ≤ -55) := by
  have hru : (-77 : ℚ) ≤ -55 := by norm_num
  refine ⟨?_, ?_, ?_⟩
  · simp [LIF.lif_integrate]
  · intro i
    match i with
    | 0 =>
      intro h
      simp [LIF.lif_integrate] at h
    | Nat.succ j =>
      intro h
      simp only [LIF.lif_integrate, List.getD_cons_succ] at h ⊢
      exact (LIF.lifGo_invariant 20 1 (-77) (-55) 2 (-2) hru _ (-77) j).1 h
  · intro i
    match i with
    | 0 =>
      intro _
      simp [LIF.lif_integrate]
      norm_num
    | Nat.succ j =>
      intro hlen
      simp only [LIF.lif_integrate, List.getD_cons_succ,
        List.length_cons] at hlen ⊢
      exact (LIF.lifGo_invariant 20 1 (-77) (-55) 2 (-2) hru _ (-77) j).2
        (by omega)

/-- Witness for C5 at the concrete input `exc = [[1,1]]`, `inh = [[0,0]]`,
`T = 2`. -/
theorem lif_integrate_reset_and_threshold_witness :
    ((1 ≤ 2) ∧ ([[(1 : ℚ), 1]] : List (List ℚ)) ≠ [] ∧
      ([[(0 : ℚ), 0]] : List (List ℚ)) ≠ [] ∧
      (∀ r ∈ ([[(1 : ℚ), 1]] : List (List ℚ)), r.length = 2) ∧
      (∀ r ∈ ([[(0 : ℚ), 0]] : List (List ℚ)), r.length = 2) ∧
      (∀ r ∈ ([[(1 : ℚ), 1]] : List (List ℚ)), ∀ x ∈ r, x = 0 ∨ x = 1) ∧
      (∀ r ∈ ([[(0 : ℚ), 0]] : List (List ℚ)), ∀ x ∈ r, x = 0 ∨ x = 1)) ∧
    ((LIF.lif_integrate [[1, 1]] [[0, 0]] 20 1 (-77) (-55) 2 (-2)).1.getD 0 0
        = -77 ∧
    (∀ i : ℕ,
      (LIF.lif_integrate [[1, 1]] [[0, 0]] 20 1 (-77) (-55) 2 (-2)).2.getD i 0
          = 1 →
      (LIF.lif_integrate [[1, 1]] [[0, 0]] 20 1 (-77) (-55) 2 (-2)).1.getD i 0
          = -77) ∧
    (∀ i : ℕ,
      i < (LIF.lif_integrate [[1, 1]] [[0, 0]] 20 1 (-77) (-55) 2 (-2)).1.length →
      (LIF.lif_integrate [[1, 1]] [[0, 0]] 20 1 (-77) (-55) 2 (-2)).1.getD i 0
          ≤ -55)) :=
  ⟨⟨by decide, by decide, by decide, by decide, by decide, by decide,
    by decide⟩,
   lif_integrate_reset_and_threshold [[1, 1]] [[0, 0]] 2 (by decide)
     (by decide) (by decide) (by decide) (by decide) (by decide) (by decide)⟩

/-! Section methods.py: `spike_trains_to_binary`. -/

namespace Spikes

/-- Python `int()` on a rational: truncation toward zero. -/
def pyint (q : ℚ) : ℤ := if 0 ≤ q then ⌊q⌋ else ⌈q⌉

/-- Assignment `binary[bin_idx] = 1` for an integer index, with numpy's
negative-index wrapping (`binary[-k]` is `binary[n-k]`).  A negative
index below `-n` raises `IndexError` in numpy; this model leaves the
list unchanged there, and no theorem below reaches that branch. -/
def setOne (bins : List ℚ) (idx : ℤ) : List ℚ :=
  if 0 ≤ idx then bins.set idx.toNat 1
  else if (-idx).toNat ≤ bins.length then
    bins.set (bins.length - (-idx).toNat) 1
  else bins

/-- One loop iteration (methods.py, lines 38-41):
`bin_idx = int(spike_time / bin_size)`, guarded by `bin_idx < n_bins`. -/
def stbStep (bs : ℚ) (nb : ℕ) (bins : List ℚ) (t : ℚ) : List ℚ :=
  if pyint (t / bs) < (nb : ℤ) then setOne bins (pyint (t / bs)) else bins

/-- Embedding of the inner `spike_train_to_binary`
(methods.py, lines 35-42): `n_bins = int(duration / bin_size)`,
`binary = np.zeros(n_bins)`, then the loop over the spike times. -/
def spike_train_to_binary (times : List ℚ) (duration bs : ℚ) : List ℚ :=
  times.foldl (stbStep bs (pyint (duration / bs)).toNat)
    (List.replicate (pyint (duration / bs)).toNat 0)

theorem stbFold_ones_from_floor_bins (bs : ℚ) (nb : ℕ) (hbs : 0 < bs) :
    ∀ (times : List ℚ) (acc : List ℚ) (j : ℕ),
      (∀ t ∈ times, 0 ≤ t) →
      (times.foldl (stbStep bs nb) acc).getD j 0 = 1 →
      acc.getD j 0 = 1 ∨ ∃ t ∈ times, ⌊t / bs⌋ = (j : ℤ) := by
  intro times
  induction times with
  | nil =>
    intro acc j _ h
    exact Or.inl h
  | cons t ts ih =>
    intro acc j hpos hfold
    have ht0 : (0 : ℚ) ≤ t := hpos t (List.mem_cons_self t ts)
    have hq0 : (0 : ℚ) ≤ t / bs := div_nonneg ht0 hbs.le
    have hidx : pyint (t / bs) = ⌊t / bs⌋ := if_pos hq0
    have hfl0 : (0 : ℤ) ≤ ⌊t / bs⌋ := Int.floor_nonneg.mpr hq0
    rw [List.foldl_cons] at hfold
    rcases ih (stbStep bs nb acc t) j
        (fun u hu => hpos u (List.mem_cons_of_mem _ hu)) hfold with
      hacc | ⟨u, hu, hfu⟩
    · by_cases hlt : pyint (t / bs) < (nb : ℤ)
      · rw [stbStep, if_pos hlt, setOne, if_pos (hidx ▸ hfl0)] at hacc
        by_cases hj : (pyint (t / bs)).toNat = j
        · refine Or.inr ⟨t, List.mem_cons_self t ts, ?_⟩
          rw [← hidx, ← hj, Int.toNat_of_nonneg (hidx ▸ hfl0)]
        · refine Or.inl ?_
          rwa [List.getD_eq_getElem?_getD, List.getElem?_set_ne hj,
            ← List.getD_eq_getElem?_getD] at hacc
      · rw [stbStep, if_neg hlt] at hacc
        exact Or.inl hacc
    · exact Or.inr ⟨u, List.mem_cons_of_mem _ hu, hfu⟩

theorem getD_replicate_zero (n j : ℕ) :
    (List.replicate n (0 : ℚ)).getD j 0 = 0 := by
  rw [List.getD_eq_getElem?_getD, List.getElem?_replicate]
  by_cases h : j < n <;> simp [h]

end Spikes

/-- Claim C8, counterexample: The claim's universal part — every spike time
`t` contributes only to bin `⌊t/bin_size⌋` — is false on the code: the
spike time `-1/2` (with `duration = 5`, `bin_size = 1`) sets bin `0`,
because `int(-0.5)` truncates toward zero, while `⌊-1/2⌋ = -1`. -/
theorem spike_binning_floor_claim_false :
    ¬ (∀ (times : List ℚ) (duration bs : ℚ) (j : ℕ),
        (Spikes.spike_train_to_binary times duration bs).getD j 0 = 1 →
        ∃ t ∈ times, ⌊t / bs⌋ = (j : ℤ)) := by
  intro h
  have h1 : (Spikes.spike_train_to_binary [-(1 : ℚ)/2] 5 1).getD 0 0 = 1 := by
    norm_num [Spikes.spike_train_to_binary, Spikes.stbStep, Spikes.setOne,
      Spikes.pyint, List.replicate, List.foldl]
    rw [show ⌈-((1 : ℚ)/2)⌉ = 0 from by norm_num]
    simp
  obtain ⟨t, ht, hfl⟩ := h [-(1 : ℚ)/2] 5 1 0 h1
  have ht' : t = -(1 : ℚ)/2 := by simpa using ht
  rw [ht'] at hfl
  have : ⌊(-(1 : ℚ)/2) / 1⌋ = -1 := by norm_num
  rw [this] at hfl
  exact absurd hfl (by decide)

/-- Claim C8, amended: For `spike_trains_to_binary`: the spike-time list
`[0.5, 0.5, 3.2]` with `duration = 5`, `bin_size = 1` yields exactly
`[1,0,0,1,0]` (the two spikes in bin 0 saturate to 1); and for inputs
with nonnegative spike times and positive bin size, a spike time `t`
contributes only to bin `⌊t/bin_size⌋`, and (for nonnegative duration) a
spike time with `⌊t/bin_size⌋ ≥ ⌊duration/bin_size⌋` is dropped
silently. -/
theorem spike_train_to_binary_amended :
    Spikes.spike_train_to_binary [1/2, 1/2, 16/5] 5 1 = [1, 0, 0, 1, 0] ∧
    (∀ (times : List ℚ) (duration bs : ℚ), 0 < bs →
      (∀ t ∈ times, 0 ≤ t) → ∀ j : ℕ,
      (Spikes.spike_train_to_binary times duration bs).getD j 0 = 1 →
      ∃ t ∈ times, ⌊t / bs⌋ = (j : ℤ)) ∧
    (∀ (times : List ℚ) (duration bs t : ℚ), 0 < bs → 0 ≤ duration →
      0 ≤ t → ⌊duration / bs⌋ ≤ ⌊t / bs⌋ →
      Spikes.spike_train_to_binary (t :: times) duration bs =
        Spikes.spike_train_to_binary times duration bs) := by
  refine ⟨?_, ?_, ?_⟩
  · norm_num [Spikes.spike_train_to_binary, Spikes.stbStep, Spikes.setOne,
      Spikes.pyint, List.replicate, List.foldl]
    norm_num [Int.toNat_ofNat, List.set]
  · intro times duration bs hbs hpos j hj
    rw [Spikes.spike_train_to_binary] at hj
    rcases Spikes.stbFold_ones_from_floor_bins bs _ hbs times _ j hpos hj with
      h0 | h
    · rw [Spikes.getD_replicate_zero] at h0
      exact absurd h0 (by norm_num)
    · exact h
  · intro times duration bs t hbs hd ht hge
    have hq0 : (0 : ℚ) ≤ t / bs := div_nonneg ht hbs.le
    have hd0 : (0 : ℚ) ≤ duration / bs := div_nonneg hd hbs.le
    have hit : Spikes.pyint (t / bs) = ⌊t / bs⌋ := if_pos hq0
    have hid : Spikes.pyint (duration / bs) = ⌊duration / bs⌋ := if_pos hd0
    have hnb : ((Spikes.pyint (duration / bs)).toNat : ℤ) =
        ⌊duration / bs⌋ := by
      rw [hid]
      exact Int.toNat_of_nonneg (Int.floor_nonneg.mpr hd0)
    rw [Spikes.spike_train_to_binary, Spikes.spike_train_to_binary,
      List.foldl_cons, Spikes.stbStep, if_neg (by rw [hit, hnb]; omega)]

/-- Witness for the amended C8 at the concrete input `times = [1/2]`,
`duration = 5`, `bin_size = 1`, bin `0`. -/
theorem spike_train_to_binary_amended_witness :
    ((0 : ℚ) < 1 ∧ (∀ t ∈ [(1 : ℚ)/2], (0 : ℚ) ≤ t) ∧
      (Spikes.spike_train_to_binary [(1 : ℚ)/2] 5 1).getD 0 0 = 1) ∧
    (∃ t ∈ [(1 : ℚ)/2], ⌊t / (1 : ℚ)⌋ = ((0 : ℕ) : ℤ)) := by
  have h1 : (Spikes.spike_train_to_binary [(1 : ℚ)/2] 5 1).getD 0 0 = 1 := by
    norm_num [Spikes.spike_train_to_binary, Spikes.stbStep, Spikes.setOne,
      Spikes.pyint, List.replicate, List.foldl]
  exact ⟨⟨by norm_num, by norm_num, h1⟩,
    spike_train_to_binary_amended.2.1 [(1 : ℚ)/2] 5 1 (by norm_num)
      (by norm_num) 0 h1⟩

/-! Section variable.py: reverse-mode autodiff `Variable`. -/

namespace AutoDiff

/-- A node of the computation graph built by `variable.py`.  Python
object identity is modelled by the `ℕ` identifier carried by each node:
every constructor call in the source allocates a fresh object, and the
concrete graphs below assign distinct identifiers.  A `leaf` is a
`Variable(value)` built with the default `gradients=None`; a `node`
carries an explicit `gradients` tuple of `(child, local derivative)`
pairs. -/
inductive Var (α : Type) : Type
  | leaf : ℕ → α → Var α
  | node : ℕ → α → List (Var α × α) → Var α

variable {α : Type} [LinearOrderedField α]

/-- The stored `value`. -/
def value : Var α → α
  | .leaf _ v => v
  | .node _ v _ => v

/-- The identifier modelling Python object identity (`is`). -/
def vid : Var α → ℕ
  | .leaf i _ => i
  | .node i _ _ => i

/-- Function `np.sign`. -/
def pysign (x : α) : α := if 0 < x then 1 else if x < 0 then -1 else 0

/-- Field `self._gradients` (variable.py, line 11): a default-constructed leaf
carries the synthetic self-edge `((self, np.sign(value)),)`. -/
def gradsOf : Var α → List (Var α × α)
  | .leaf i v => [(.leaf i v, pysign v)]
  | .node _ _ gs => gs

/-- The recursion-termination `criteria` of `compute_gradients`
(variable.py, lines 125-128): exactly one gradient edge, pointing at the
node itself. -/
def criteria (v : Var α) : Bool :=
  match gradsOf v with
  | [(c, _)] => vid c == vid v
  | _ => false

mutual

/-- Function `_compute_gradients(variable, total_gradient)`
(variable.py, lines 117-131), acting on the accumulator
`gradients = defaultdict(lambda: 0)` keyed by node identity. -/
def cgVar : Var α → α → (ℕ → α) → (ℕ → α)
  | .leaf i v, total, acc =>
    fun j => if j = i then acc j + total * pysign v else acc j
  | .node _ _ gs, total, acc => cgList gs total acc

/-- The loop `for child_variable, child_gradient in variable._gradients`:
multiply the edges of a path, add together the different paths, and
recurse unless `criteria` holds for the child. -/
def cgList : List (Var α × α) → α → (ℕ → α) → (ℕ → α)
  | [], _, acc => acc
  | (c, g) :: rest, total, acc =>
    let grad := total * g
    let acc1 : ℕ → α := fun j => if j = vid c then acc j + grad else acc j
    let acc2 : ℕ → α := if criteria c then acc1 else cgVar c grad acc1
    cgList rest total acc2

end

/-- Function `compute_gradients(variable)` (variable.py, lines 111-135) as a map
from node identity to the accumulated derivative. -/
def compute_gradients (v : Var α) : ℕ → α := cgVar v 1 (fun _ => 0)

/-- Constructor `Variable(value)` with the default `gradients=None`
(variable.py, lines 7-13); `i` is the identity of the fresh object. -/
def Variable (i : ℕ) (v : α) : Var α := .leaf i v

/-- Operation `add(a, b)` (lines 65-71). -/
def add (i : ℕ) (a b : Var α) : Var α :=
  .node i (value a + value b) [(a, 1), (b, 1)]

/-- Operation `mul(a, b)` (lines 73-79). -/
def mul (i : ℕ) (a b : Var α) : Var α :=
  .node i (value a * value b) [(a, value b), (b, value a)]

/-- Operation `neg(a)` (lines 81-86). -/
def neg (i : ℕ) (a : Var α) : Var α :=
  .node i (-1 * value a) [(a, -1)]

/-- Operation `inv(a)` (lines 88-93). -/
def inv (i : ℕ) (a : Var α) : Var α :=
  .node i (1 / value a) [(a, -1 / value a ^ 2)]

/-- Operation `pow(a, n)` (lines 95-100): the stored local derivative is
`n * a.value` exactly as written in the source — not the calculus
derivative `n * a.value^(n-1)`. -/
def pow (i : ℕ) (a : Var α) (n : ℕ) : Var α :=
  .node i (value a ^ n) [(a, (n : α) * value a)]

/-- Operation `exp(a)` (lines 102-108), over the reals. -/
noncomputable def exp (i : ℕ) (a : Var ℝ) : Var ℝ :=
  .node i (Real.exp (value a)) [(a, Real.exp (value a))]

mutual

/-- The total derivative contribution `_compute_gradients` adds at node
identity `j` when called on `v` with the given `total_gradient`
(the accumulator-free reading of `cgVar`). -/
def contribV : Var α → α → ℕ → α
  | .leaf i v, total, j => if j = i then total * pysign v else 0
  | .node _ _ gs, total, j => contribL gs total j

/-- The contribution of the edge loop (accumulator-free reading of
`cgList`). -/
def contribL : List (Var α × α) → α → ℕ → α
  | [], _, _ => 0
  | (c, g) :: rest, total, j =>
    ((if j = vid c then total * g else 0) +
      (if criteria c then 0 else contribV c (total * g) j)) +
    contribL rest total j

end

mutual

theorem cgVar_apply (v : Var α) (total : α) (acc : ℕ → α) (j : ℕ) :
    cgVar v total acc j = acc j + contribV v total j := by
  cases v with
  | leaf i x =>
    by_cases h : j = i <;> simp [cgVar, contribV, h]
  | node i x gs =>
    rw [show cgVar (Var.node i x gs) total acc = cgList gs total acc
      from rfl]
    rw [show contribV (Var.node i x gs) total j = contribL gs total j
      from rfl]
    exact cgList_apply gs total acc j

theorem cgList_apply (gs : List (Var α × α)) (total : α) (acc : ℕ → α)
    (j : ℕ) :
    cgList gs total acc j = acc j + contribL gs total j := by
  match gs with
  | [] => simp [cgList, contribL]
  | (c, g) :: rest =>
    rw [show cgList ((c, g) :: rest) total acc =
        cgList rest total
          (if criteria c then
            (fun j' => if j' = vid c then acc j' + total * g else acc j')
           else cgVar c (total * g)
            (fun j' => if j' = vid c then acc j' + total * g else acc j'))
      from rfl]
    rw [cgList_apply rest total _ j]
    rw [show contribL ((c, g) :: rest) total j =
        ((if j = vid c then total * g else 0) +
          (if criteria c then 0 else contribV c (total * g) j)) +
        contribL rest total j
      from rfl]
    by_cases hc : criteria c
    · rw [if_pos hc, if_pos hc]
      by_cases h : j = vid c <;> simp [h] <;> ring
    · rw [if_neg hc, if_neg hc]
      rw [cgVar_apply c (total * g) _ j]
      by_cases h : j = vid c <;> simp [h] <;> ring

end

end AutoDiff

/-- Claim C6: A `Variable(v)` constructed with no explicit gradients has
exactly one gradient edge, a self-edge with local derivative
`np.sign(v)`; consequently `compute_gradients` treats it as a
recursion-terminating leaf: the `criteria` test holds, and the loop over
an edge `(Variable(v), g)` only accumulates `total * g` at the node's
identity without recursing. -/
theorem variable_default_self_edge (i : ℕ) (v : ℚ) :
    AutoDiff.gradsOf (AutoDiff.Variable i v) =
      [(AutoDiff.Variable i v, AutoDiff.pysign v)] ∧
    (AutoDiff.gradsOf (AutoDiff.Variable i v)).length = 1 ∧
    AutoDiff.criteria (AutoDiff.Variable i v) = true ∧
    (∀ (total g : ℚ) (acc : ℕ → ℚ),
      AutoDiff.cgList [(AutoDiff.Variable i v, g)] total acc =
        fun j => if j = i then acc j + total * g else acc j) := by
  refine ⟨rfl, rfl, ?_, ?_⟩
  · simp [AutoDiff.criteria, AutoDiff.gradsOf, AutoDiff.Variable,
      AutoDiff.vid]
  · intro total g acc
    funext j
    simp [AutoDiff.cgList, AutoDiff.criteria, AutoDiff.gradsOf,
      AutoDiff.Variable, AutoDiff.vid]

/-- Claim C10: `pow(a, n)` creates a node whose single gradient edge is
`(a, n * a.value)`, so the derivative of `a**n` with respect to a leaf
`a` computed by `compute_gradients` is `n * a.value`; this coincides
with the calculus derivative `n * a.value^(n-1)` exactly when
`a.value^(n-2) = 1` (in particular it does for `n = 2`). -/
theorem pow_gradient_is_n_times_value (i ia : ℕ) (v : ℚ) (n : ℕ)
    (h2 : 2 ≤ n) (hv : v ≠ 0) :
    AutoDiff.gradsOf (AutoDiff.pow i (AutoDiff.Variable ia v) n) =
      [(AutoDiff.Variable ia v, (n : ℚ) * v)] ∧
    AutoDiff.compute_gradients (AutoDiff.pow i (AutoDiff.Variable ia v) n) ia
      = (n : ℚ) * v ∧
    (((n : ℚ) * v = (n : ℚ) * v ^ (n - 1)) ↔ v ^ (n - 2) = 1) := by
  refine ⟨rfl, ?_, ?_⟩
  · simp [AutoDiff.compute_gradients, AutoDiff.cgVar, AutoDiff.cgList,
      AutoDiff.criteria, AutoDiff.gradsOf, AutoDiff.Variable, AutoDiff.pow,
      AutoDiff.vid, AutoDiff.value]
  · constructor
    · intro h
      have hn : (n : ℚ) ≠ 0 := Nat.cast_ne_zero.mpr (by omega)
      have hvv : v = v ^ (n - 1) := mul_left_cancel₀ hn h
      have hsplit : v ^ (n - 1) = v ^ (n - 2) * v := by
        rw [← pow_succ]
        congr 1
        omega
      have h1 : (1 : ℚ) * v = v ^ (n - 2) * v := by
        rw [one_mul, ← hsplit]
        exact hvv
      exact (mul_right_cancel₀ hv h1).symm
    · intro h
      have hsplit : v ^ (n - 1) = v := by
        have hn1 : n - 1 = (n - 2) + 1 := by omega
        rw [hn1, pow_succ, h, one_mul]
      rw [hsplit]

/-- Witness for C10 at `i = 0`, `ia = 1`, `v = 2`, `n = 3`. -/
theorem pow_gradient_is_n_times_value_witness :
    (2 ≤ 3 ∧ (2 : ℚ) ≠ 0) ∧
    (AutoDiff.gradsOf (AutoDiff.pow 0 (AutoDiff.Variable 1 (2 : ℚ)) 3) =
      [(AutoDiff.Variable 1 (2 : ℚ), ((3 : ℕ) : ℚ) * 2)] ∧
    AutoDiff.compute_gradients
        (AutoDiff.pow 0 (AutoDiff.Variable 1 (2 : ℚ)) 3) 1
      = ((3 : ℕ) : ℚ) * 2 ∧
    ((((3 : ℕ) : ℚ) * 2 = ((3 : ℕ) : ℚ) * 2 ^ (3 - 1)) ↔
      (2 : ℚ) ^ (3 - 2) = 1)) :=
  ⟨⟨by norm_num, by norm_num⟩,
   pow_gradient_is_n_times_value 0 1 2 3 (by norm_num) (by norm_num)⟩

namespace C1graph

open AutoDiff

/-!
The graph of `loss(y, y_hat(w_0, w_1, x_1)) = 0.5 * (y - y_hat)**2` with
`y_hat = sigma(w_0 + w_1*x_1)`, `sigma(x) = 1./(1. + exp(-x))`, built by
the `__main__` self-test of variable.py with `x_1 = 0.1`, `w_0 = 4`,
`w_1 = 3`, `y = 10`.  Nodes are listed in Python evaluation order with
fresh identities 0-17; `1. + u` goes through `__radd__` (a fresh
`Variable(1.)`), `1./u` through `__rtruediv__` (`mul(one, inv(u))`),
`y - y_hat` through `__sub__` (`add(y, neg(y_hat))`), `**2` through
`pow`, and `0.5 * u` through `__rmul__` (`mul(u, Variable(0.5))`).
-/

noncomputable def x1 : Var ℝ := Variable 0 0.1
noncomputable def w0 : Var ℝ := Variable 1 4
noncomputable def w1 : Var ℝ := Variable 2 3
noncomputable def yv : Var ℝ := Variable 3 10
noncomputable def m1 : Var ℝ := mul 4 w1 x1
noncomputable def s : Var ℝ := add 5 w0 m1
noncomputable def ns : Var ℝ := neg 6 s
noncomputable def e : Var ℝ := exp 7 ns
noncomputable def one1 : Var ℝ := Variable 8 1
noncomputable def dnm : Var ℝ := add 9 e one1
noncomputable def one2 : Var ℝ := Variable 10 1
noncomputable def iv : Var ℝ := inv 11 dnm
noncomputable def yh : Var ℝ := mul 12 one2 iv
noncomputable def nyh : Var ℝ := neg 13 yh
noncomputable def d : Var ℝ := add 14 yv nyh
noncomputable def p : Var ℝ := pow 15 d 2
noncomputable def half : Var ℝ := Variable 16 0.5
noncomputable def L : Var ℝ := mul 17 p half

/-- The sigmoid `sigma(x) = 1./(1. + exp(-x))` of the self-test. -/
noncomputable def sigmoid (x : ℝ) : ℝ := 1 / (1 + Real.exp (-x))

/-- Predicate `numpy.isclose` with its default tolerances
`rtol = 1e-5`, `atol = 1e-8`: `|a - b| <= atol + rtol*|b|`. -/
def np_isclose (a b : ℝ) : Prop :=
  |a - b| ≤ 1 / 100000000 + (1 / 100000) * |b|

theorem grad_at_y_eval :
    AutoDiff.compute_gradients L 3 = 10 - sigmoid (4 + 3 * 0.1) := by
  have h0 : AutoDiff.compute_gradients L 3 =
      AutoDiff.cgVar L 1 (fun _ => (0 : ℝ)) 3 := rfl
  rw [h0, AutoDiff.cgVar_apply]
  simp only [L, p, half, d, nyh, yh, one2, iv, dnm, one1, e, ns, s, m1,
    x1, w0, w1, yv, AutoDiff.mul, AutoDiff.add, AutoDiff.neg, AutoDiff.inv,
    AutoDiff.pow, AutoDiff.exp, AutoDiff.Variable, AutoDiff.value,
    AutoDiff.vid]
  norm_num [AutoDiff.contribV, AutoDiff.contribL, AutoDiff.criteria,
    AutoDiff.gradsOf, AutoDiff.vid, AutoDiff.value, sigmoid]
  ring_nf

theorem sigmoid_pos : 0 < sigmoid (4 + 3 * 0.1) := by
  have hexp : 0 < Real.exp (-(4 + 3 * 0.1)) := Real.exp_pos _
  rw [sigmoid]
  positivity

theorem sigmoid_lt_one : sigmoid (4 + 3 * 0.1) < 1 := by
  have hexp : 0 < Real.exp (-(4 + 3 * 0.1)) := Real.exp_pos _
  rw [sigmoid, div_lt_one (by linarith)]
  linarith

end C1graph

/-- Claim C1, counterexample: With leaves `w0=4, w1=3, x1=0.1, y=10`,
`y_hat = sigmoid(w0 + w1*x1)` and `L = 0.5*(y - y_hat)^2` built from
`Variable` operations, the gradient `compute_gradients(L)` assigns to
the node `y` is *not* `numpy.isclose` to `y_hat - y`: the code computes
`y - y_hat ≈ +9.01`, while `y_hat - y ≈ -9.01` (the module's own
self-test asserts `y - y_hat`). -/
theorem autodiff_loss_grad_y_claim_false :
    ¬ C1graph.np_isclose (AutoDiff.compute_gradients C1graph.L 3)
        (C1graph.sigmoid (4 + 3 * 0.1) - 10) := by
  intro h
  rw [C1graph.grad_at_y_eval] at h
  simp only [C1graph.np_isclose] at h
  have hs0 := C1graph.sigmoid_pos
  have hs1 := C1graph.sigmoid_lt_one
  rw [show (10 : ℝ) - C1graph.sigmoid (4 + 3 * 0.1) -
        (C1graph.sigmoid (4 + 3 * 0.1) - 10) =
        20 - 2 * C1graph.sigmoid (4 + 3 * 0.1) from by ring,
    abs_of_pos (by linarith),
    abs_of_neg (show C1graph.sigmoid (4 + 3 * 0.1) - 10 < 0 by linarith)]
    at h
  linarith

/-- Claim C1, amended: The gradient map computed by `compute_gradients(L)`
assigns to the node `y` exactly `y - y_hat = 10 - sigmoid(4 + 3*0.1)`
(in particular it is `numpy.isclose` to that value, matching the
module's own self-test). -/
theorem autodiff_loss_grad_y_amended :
    AutoDiff.compute_gradients C1graph.L 3 =
      10 - C1graph.sigmoid (4 + 3 * 0.1) ∧
    C1graph.np_isclose (AutoDiff.compute_gradients C1graph.L 3)
      (10 - C1graph.sigmoid (4 + 3 * 0.1)) := by
  refine ⟨C1graph.grad_at_y_eval, ?_⟩
  rw [C1graph.grad_at_y_eval]
  simp only [C1graph.np_isclose, sub_self, abs_zero]
  positivity

/-! Section with the claim theorems for C4 and C2. -/

/-- Claim C4: For every state `(Cai, CaSR)` and every parameter tuple,
`CICRWidget.rhs` returns exactly `(dCai_dt, dCaSR_dt)` where
`J_entry = k_entry*(Cao - Cai)`, `J_extrusion = k_extrusion*Cai`,
`J_uptake = k_uptake*Cai`, `k_rel = kappa0 + kappa1*Cai^n/(Cai^n + Kd^n)`,
`J_rel = k_rel*(CaSR - Cai)`, `dCai_dt = J_entry + J_rel - J_extrusion - J_uptake`,
and `dCaSR_dt = (J_uptake - J_rel)/gamma`. -/
theorem cicr_rhs_returns_claimed_fluxes
    (t Cai CaSR Cao k_entry k_extrusion k_uptake kappa0 kappa1 Kd n gamma : ℝ) :
    CICR.rhs t Cai CaSR Cao k_entry k_extrusion k_uptake kappa0 kappa1 Kd n gamma =
      (k_entry * (Cao - Cai)
         + (kappa0 + kappa1 * Cai ^ n / (Cai ^ n + Kd ^ n)) * (CaSR - Cai)
         - k_extrusion * Cai - k_uptake * Cai,
       (k_uptake * Cai
         - (kappa0 + kappa1 * Cai ^ n / (Cai ^ n + Kd ^ n)) * (CaSR - Cai)) / gamma) := rfl

/-- Claim C2: The 12 L-type Markov occupancy derivatives of
`Jafri_model_parts.currents_concentrations` do *not* sum to zero: for every
state the sum equals `gamma*(C_Ca0 - C0) = 0.1875*Ca_SS*(C_Ca0 - C0)`
(the inflow of `dC_Ca0_dt` reads `gamma*C_Ca0` where conservation of the
Markov scheme requires `gamma*C0`), and at the state with `C0 = 1`,
`Ca_SS = 1` and all other occupancies `0` the sum is `-3/16 ≠ 0`. -/
theorem jafri_ltype_occupancy_not_conserved :
    (∀ s : Jafri.LState,
        Jafri.ltypeSum s = Jafri.gamma s.Ca_SS * (s.C_Ca0 - s.C0)) ∧
    Jafri.ltypeSum Jafri.badState = -(3 / 16) ∧ (-(3 / 16) : ℝ) ≠ 0 := by
  have h : ∀ s : Jafri.LState,
      Jafri.ltypeSum s = Jafri.gamma s.Ca_SS * (s.C_Ca0 - s.C0) := by
    intro s
    simp only [Jafri.ltypeSum, Jafri.dC0_dt, Jafri.dC1_dt, Jafri.dC2_dt,
      Jafri.dC3_dt, Jafri.dC4_dt, Jafri.dC_Ca0_dt, Jafri.dC_Ca1_dt,
      Jafri.dC_Ca2_dt, Jafri.dC_Ca3_dt, Jafri.dC_Ca4_dt, Jafri.dO_dt,
      Jafri.dO_Ca_dt, Jafri.alpha_a, Jafri.beta_b]
    ring
  refine ⟨h, ?_, by norm_num⟩
  rw [h Jafri.badState]
  show Jafri.gamma 1 * (0 - 1) = -(3 / 16)
  norm_num [Jafri.gamma]

end SSCP
